import Mathlib

/-!
Verification of `pyenv-mkenv` (`src/mkenv.py`) against its specification.

The script is embedded shallowly:

* Strings are Lean `String`s; all Python string operations used by the script
  (`strip`, `lower`, `split`, `startswith`, `endswith`, `int(...)`,
  `textwrap.indent`) are re-implemented over `String.data` as structural
  list functions so that every definition evaluates by `decide`/`rfl`.
  They model the ASCII fragment of the corresponding Python functions
  (the script only ever handles ASCII version names, menu responses and
  file names); in particular `str.strip` is modelled with Lean's
  `Char.isWhitespace` and `\d` with `Char.isDigit`.
* External effects are oracles passed as parameters: subprocess execution
  (`subprocess.run`) is a function from a command line to a
  `ProcResult`; the pyenv versions directory is a list of names; the
  regex given to `re.compile` in `filter_versions` is an abstract
  search function; standard input is a list of canned lines; the
  directory tree walked by `os.walk` is an explicit `Entry` tree.
* Python exceptions become the `PyError` sum; `sys.exit(0)` is the
  `PyError.systemExit 0` outcome.
-/

namespace Mkenv

/-- Python `str.strip()` on the ASCII whitespace fragment: drop whitespace
characters from both ends. -/
def stripChars (cs : List Char) : List Char :=
  ((cs.dropWhile Char.isWhitespace).reverse.dropWhile Char.isWhitespace).reverse

/-- Python `str.strip()`. -/
def pyStrip (s : String) : String :=
  String.mk (stripChars s.data)

/-- Python `str.lower()` (ASCII fragment). -/
def pyLower (s : String) : String :=
  String.mk (s.data.map Char.toLower)

/-- Python `str.startswith(pre)`: the argument is a leading substring. -/
def pyStartswith (s pre : String) : Bool :=
  pre.data.isPrefixOf s.data

/-- Python `str.endswith(suf)`: the argument is a trailing substring. -/
def pyEndswith (s suf : String) : Bool :=
  suf.data.isSuffixOf s.data

/-- Helper for `pySplitComma`: accumulate the current field (reversed). -/
def splitCommaAux : List Char → List Char → List String
  | [], acc => [String.mk acc.reverse]
  | c :: cs, acc =>
    if c = ',' then String.mk acc.reverse :: splitCommaAux cs []
    else splitCommaAux cs (c :: acc)

/-- Python `str.split(",")`: fields between commas, one more field than
commas, empty fields preserved. -/
def pySplitComma (s : String) : List String :=
  splitCommaAux s.data []

/-- Numeric value of a run of decimal digits (empty run gives 0;
callers guard against empty runs). -/
def digitsVal (ds : List Char) : Nat :=
  ds.foldl (fun n c => n * 10 + (c.toNat - 48)) 0

/-- Python `int(response)` on the fragment the script can meet: optional
surrounding whitespace, an optional sign, then one or more decimal digits.
(Numeric-literal underscores and non-ASCII digits are outside the model.)
Returns `none` where Python raises `ValueError`. -/
def pyInt (s : String) : Option Int :=
  let core := stripChars s.data
  let signed : Bool × List Char :=
    match core with
    | '-' :: ds => (true, ds)
    | '+' :: ds => (false, ds)
    | ds => (false, ds)
  if signed.2 ≠ [] ∧ signed.2.all Char.isDigit then
    some (if signed.1 then -(digitsVal signed.2 : Int) else (digitsVal signed.2 : Int))
  else none

/-- Helper for `splitlinesKeep`: split after each newline, keeping the
newline with its line; `acc` is the current line reversed. -/
def splitNLAux : List Char → List Char → List (List Char)
  | [], acc => if acc.isEmpty then [] else [acc.reverse]
  | c :: cs, acc =>
    if c = '\n' then (acc.reverse ++ ['\n']) :: splitNLAux cs []
    else splitNLAux cs (c :: acc)

/-- Python `str.splitlines(True)` restricted to `\n` line endings (the only
line ending produced by the subprocess text streams the script indents). -/
def splitlinesKeep (s : String) : List String :=
  (splitNLAux s.data []).map String.mk

/-- Python `textwrap.indent(text, pre)` with the default predicate: each
line that contains a non-whitespace character gets the given pre-string. -/
def pyIndent (pre text : String) : String :=
  String.join ((splitlinesKeep text).map
    (fun l => if pyStrip l = "" then l else pre ++ l))

/-! ## The version regex `(?P<major>\d+)\.(?P<minor>\d+)(\.(?P<patch>\d+))?`

`ver_re` (src/mkenv.py line 95).  A triple `(major, minor, patch)` records
one match, with a missing patch group already replaced by `-1` exactly as
`sort_key` does before negating. -/

/-- A parsed `major.minor[.patch]` match; missing patch is `-1`. -/
abbrev VerTriple := Int × Int × Int

/-- Longest run of decimal digits at the head of the list, and the rest. -/
def spanDigits : List Char → List Char × List Char
  | [] => ([], [])
  | c :: cs =>
    if c.isDigit then
      let t := spanDigits cs
      (c :: t.1, t.2)
    else ([], c :: cs)

/-- Attempt to match `ver_re` anchored at the head of the character list.
On success, return the parsed triple and the characters after the match.
Greedy digit runs need no backtracking: a maximal digit run is never
followed by a digit, so shrinking `\d+` can never expose the required
dot. -/
def matchVerAt (cs : List Char) : Option (VerTriple × List Char) :=
  let p1 := spanDigits cs
  if p1.1 = [] then none
  else
    match p1.2 with
    | '.' :: r2 =>
      let p2 := spanDigits r2
      if p2.1 = [] then none
      else
        match p2.2 with
        | '.' :: r4 =>
          let p3 := spanDigits r4
          if p3.1 = [] then some (((digitsVal p1.1 : Int), (digitsVal p2.1 : Int), -1), p2.2)
          else some (((digitsVal p1.1 : Int), (digitsVal p2.1 : Int), (digitsVal p3.1 : Int)), p3.2)
        | r3 => some (((digitsVal p1.1 : Int), (digitsVal p2.1 : Int), -1), r3)
    | _ => none

/-- Left-to-right non-overlapping scan of the string, as performed both by
`ver_re.finditer` (first component: the matches in order) and by
`ver_re.sub("", s)` (second component: the unmatched characters in order).
`fuel` is an upper bound on the number of scan steps; each step consumes at
least one character, so `cs.length` steps always complete the scan.  The
fuel makes the recursion structural, hence kernel-reducible. -/
def scanVer : Nat → List Char → List VerTriple × List Char
  | 0, cs => ([], cs)
  | _ + 1, [] => ([], [])
  | fuel + 1, c :: cs =>
    match matchVerAt (c :: cs) with
    | some tr =>
      let rest := scanVer fuel tr.2
      (tr.1 :: rest.1, rest.2)
    | none =>
      let rest := scanVer fuel cs
      (rest.1, c :: rest.2)

/-- All matches of `ver_re` in `s`, in order (`ver_re.finditer(s)`), parsed
with a missing patch group replaced by `-1`. -/
def findVersions (s : String) : List VerTriple :=
  (scanVer s.data.length s.data).1

/-- `ver_re.sub("", s)`: the string with every match removed. -/
def verSub (s : String) : String :=
  String.mk (scanVer s.data.length s.data).2

/-! ## `sort_key` (src/mkenv.py lines 98-118)

The Python key is a heterogeneous tuple: `(0,)` or `(1, base)` followed by
one negated triple per regex match.  That variable-length tuple under
Python's lexicographic tuple comparison is order-isomorphic to the fixed
shape `(group, base, negated matches)` compared lexicographically, where
digit-leading keys (which never carry a base in Python) all get the
placeholder base `""`: group `0` keys only ever compare with each other on
the matches (equal placeholder bases), group `0` sorts before group `1` on
the first component, and a shorter match list that is a prefix of a longer
one compares as smaller in both encodings. -/

/-- The embedded sort key: group marker, base string, negated matches. -/
abbrev SortKey := Nat × String × List VerTriple

/-- Negate all three components, as `sort_key` appends
`(-int(major), -int(minor), -int(patch))`. -/
def neg3 (t : VerTriple) : VerTriple :=
  (-t.1, -t.2.1, -t.2.2)

/-- Whether `s[0] in digits` (Python `string.digits`).  The empty string is
mapped to `false`; Python would raise `IndexError` there, and version names
coming from directory entries are never empty. -/
def leadDigit (s : String) : Bool :=
  match s.data with
  | [] => false
  | c :: _ => c.isDigit

/-- `sort_key` (src/mkenv.py lines 98-118).  For the empty string Python
raises `IndexError`; the model returns the non-digit key with empty base,
a case no claim depends on. -/
def sort_key (s : String) : SortKey :=
  match s.data with
  | [] => (1, "", [])
  | c :: _ =>
    if c.isDigit then (0, "", (findVersions s).map neg3)
    else (1, verSub s, (findVersions s).map neg3)

/-! ## Python comparison of the key tuples

Boolean lexicographic comparators, matching Python `<` on the key tuples:
ints by value, strings by code point, tuples/lists lexicographically with
a strict prefix comparing as smaller. -/

/-- Python `<` on two characters: by code point. -/
def charLTb (a b : Char) : Bool :=
  decide (a.toNat < b.toNat)

/-- Python `<` on two sequences, given `<` on elements: lexicographic, a
strict prefix comparing as smaller.  This is how Python compares two
strings (element `<` = code point order) and two tuples of equal-shape
elements. -/
def lexLTb {α : Type} [DecidableEq α] (lt : α → α → Bool) : List α → List α → Bool
  | [], [] => false
  | [], _ :: _ => true
  | _ :: _, [] => false
  | a :: as, b :: bs => lt a b || (decide (a = b) && lexLTb lt as bs)

/-- Python `<` on two strings: lexicographic by code point. -/
def strLTb (a b : List Char) : Bool :=
  lexLTb charLTb a b

/-- Python `<` on two match triples: lexicographic on the components. -/
def tripleLTb (a b : VerTriple) : Bool :=
  decide (a.1 < b.1) ||
    (decide (a.1 = b.1) &&
      (decide (a.2.1 < b.2.1) || (decide (a.2.1 = b.2.1) && decide (a.2.2 < b.2.2))))

/-- Python `<` on two sequences of match triples. -/
def mlistLTb (a b : List VerTriple) : Bool :=
  lexLTb tripleLTb a b

/-- Python `<` on two sort keys. -/
def keyLTb (x y : SortKey) : Bool :=
  decide (x.1 < y.1) ||
    (decide (x.1 = y.1) &&
      (strLTb x.2.1.data y.2.1.data ||
        (decide (x.2.1 = y.2.1) && mlistLTb x.2.2 y.2.2)))

/-- Python `<=` on two sort keys (a total order's `<=` is `not (>)`). -/
def keyLEb (x y : SortKey) : Bool :=
  !(keyLTb y x)

/-- The ordering `sorted(versions, key=sort_key)` sorts by. -/
def versLE (a b : String) : Prop :=
  keyLEb (sort_key a) (sort_key b) = true

instance : DecidableRel versLE :=
  fun a b => instDecidableEqBool (keyLEb (sort_key a) (sort_key b)) true

/-- `sorted(versions, key=sort_key)` (src/mkenv.py line 123): a stable
comparison sort by the key order. -/
def sortedVersions (l : List String) : List String :=
  List.insertionSort versLE l

/-! ## Errors, external processes, and the interactive picker -/

/-- Python exceptions and exits the script can produce, as a sum type.
`unreachableBranch` is the image of picker outcomes that the calling
context can never receive (see the call sites). -/
inductive PyError where
  /-- `IndexError`: `matching_versions[0]` on an empty list (line 141). -/
  | indexError
  /-- `ValueError`: `max(opt_dict)` on an empty mapping (line 215). -/
  | valueErrorMaxEmpty
  /-- `TypeError`: `list(None)` in `Arguments.from_parsed` (line 144). -/
  | typeError
  /-- `SystemExit` carrying the exit code, from `sys.exit` (line 277). -/
  | systemExit (code : Int)
  /-- `EOFError`: `input()` with the canned standard input exhausted. -/
  | inputExhausted
  /-- Marker for picker outcomes impossible at the call site. -/
  | unreachableBranch
deriving DecidableEq

instance {ε α : Type} [DecidableEq ε] [DecidableEq α] : DecidableEq (Except ε α)
  | .error a, .error b =>
    decidable_of_iff (a = b) ⟨fun h => h ▸ rfl, fun h => by cases h; rfl⟩
  | .error _, .ok _ => isFalse (by intro h; cases h)
  | .ok _, .error _ => isFalse (by intro h; cases h)
  | .ok a, .ok b =>
    decidable_of_iff (a = b) ⟨fun h => h ▸ rfl, fun h => by cases h; rfl⟩

/-- Result of one `subprocess.run(..., capture_output=True, text=True)`. -/
structure ProcResult where
  returncode : Int
  stdout : String
  stderr : String

/-- The `nargs` argument of `picker`: a Python int or a Python string. -/
inductive Nargs where
  | num (n : Int)
  | lit (s : String)
deriving DecidableEq

/-- `(isinstance(nargs, int) and nargs > 1) or nargs in tuple("+*")`
(line 208). -/
def multioption : Nargs → Bool
  | .num n => decide (n > 1)
  | .lit s => s = "+" || s = "*"

/-- `nargs in tuple("?*")` (line 212). -/
def allowsEmpty : Nargs → Bool
  | .num _ => false
  | .lit s => s = "?" || s = "*"

/-- What `picker` can produce.  `pyNone` is Python's `None`, returned when
an empty response is accepted: the `break` on line 240 leaves the `while`
loop and the function falls off its end. -/
inductive PickResult where
  | quitSig
  | pyNone
  | single (s : String)
  | multi (ss : List String)
deriving DecidableEq

/-- `opt_dict[k]` for `opt_dict = dict(enumerate(options, 1))`: `none`
models `KeyError`. -/
def optLookup (options : List String) (k : Int) : Option String :=
  if k < 1 then none else options.get? (k - 1).toNat

/-- The token list the response is split into:
`[r.strip() for r in response.split(",")]` when `multioption`, else the
whole response as the only token (lines 245-248). -/
def tokensOf (nargs : Nargs) (response : String) : List String :=
  if multioption nargs then (pySplitComma response).map pyStrip else [response]

/-- One iteration of the `while True` loop of `picker` (lines 233-270) on
one line of input: `some outcome` ends the loop with that outcome, `none`
prints a diagnostic and re-prompts.  Note the loop body looks up
`opt_dict[int(response)]` with the RAW response, not the token `r`
(line 257), so on success every token contributes the same option, and a
response whose raw text is not an integer is rejected whole. -/
def pickerStep (options : List String) (nargs : Nargs) (allowQuit : Bool)
    (line : String) : Option (Except PyError PickResult) :=
  let response := pyStrip line
  if response = "" then
    if allowsEmpty nargs then some (.ok .pyNone) else none
  else
    let responses := tokensOf nargs response
    if allowQuit && responses.any (fun r => pyLower r = "q") then
      some (.ok .quitSig)
    else
      match pyInt response with
      | none => none
      | some k =>
        match optLookup options k with
        | none => none
        | some opt =>
          if multioption nargs then some (.ok (.multi (responses.map (fun _ => opt))))
          else some (.ok (.single opt))

/-- The `while True` loop of `picker`, fed canned standard-input lines;
returns the outcome and the input lines not yet consumed.  Exhausting the
canned input models `input()` raising `EOFError`. -/
def pickerLoop (options : List String) (nargs : Nargs) (allowQuit : Bool) :
    List String → Except PyError PickResult × List String
  | [] => (.error .inputExhausted, [])
  | line :: rest =>
    match pickerStep options nargs allowQuit line with
    | some r => (r, rest)
    | none => pickerLoop options nargs allowQuit rest

/-- `picker` (src/mkenv.py lines 207-270).  Building the menu computes
`max(opt_dict)` (line 215), which raises `ValueError` on an empty option
sequence before any input is read; the prompt text itself has no effect on
the result and is not modelled. -/
def picker (options : List String) (nargs : Nargs) (allowQuit : Bool)
    (inputs : List String) : Except PyError PickResult × List String :=
  if options.isEmpty then (.error .valueErrorMaxEmpty, inputs)
  else pickerLoop options nargs allowQuit inputs

/-- `pick_versions` (lines 273-278): single-selection picker with quit
allowed (`nargs` defaults to the int `1`); the quit signal becomes
`sys.exit(0)`. -/
def pick_versions (versions : List String) (inputs : List String) :
    Except PyError String × List String :=
  match picker versions (.num 1) true inputs with
  | (.ok .quitSig, rest) => (.error (.systemExit 0), rest)
  | (.ok (.single v), rest) => (.ok v, rest)
  -- `nargs = 1` is neither `multioption` nor `allowsEmpty`, so `picker`
  -- can only produce `single` or `quitSig` here.
  | (.ok _, rest) => (.error .unreachableBranch, rest)
  | (.error e, rest) => (.error e, rest)

/-! ## The requirements walk (src/mkenv.py lines 281-291)

`os.walk(CWD)` is modelled over an explicit directory tree.  A directory's
contents are a chain of entries (files and subdirectories in the order the
operating system lists them).  The source iterates top-down, handling the
current directory's files (sorted by name) before its subdirectories, and
prunes `dnames` in place so the walk never descends into a subdirectory
whose name starts with `"."`; the model fuses that pruning into the
recursion. -/

/-- The contents of one directory: a finite chain of named files and named
subdirectories, in listing order. -/
inductive Entry where
  | done
  | file (name : String) (rest : Entry)
  | subdir (name : String) (contents : Entry) (rest : Entry)
deriving DecidableEq

/-- The file names of a directory, in listing order (`fnames`). -/
def filesOf : Entry → List String
  | .done => []
  | .file n rest => n :: filesOf rest
  | .subdir _ _ rest => filesOf rest

/-- The collection condition of the loop body (line 286, negated):
keep `fname` iff it starts with `"requirements"` and ends with `".txt"`. -/
def reqFileMatch (f : String) : Bool :=
  pyStartswith f "requirements" && pyEndswith f ".txt"

/-- Python `sorted` on file names: by code-point order. -/
def strDataLE (a b : String) : Prop :=
  strLTb b.data a.data = false

instance : DecidableRel strDataLE :=
  fun a b => instDecidableEqBool (strLTb b.data a.data) false

/-- `os.path.join(root, fname)` with POSIX separator. -/
def pathJoin (root f : String) : String :=
  root ++ "/" ++ f

/-- The paths one visited directory contributes:
`for fname in sorted(fnames): if <match>: reqs.append(join(root, fname))`. -/
def dirBlock (path : String) (files : List String) : List String :=
  ((List.insertionSort strDataLE files).filter reqFileMatch).map (pathJoin path)

/-- The contributions of everything below a directory's entry chain:
subdirectories are visited in listing order, each pruned if its name
starts with `"."`, then traversed depth-first exactly as the fused
`os.walk` loop does. -/
def walkEntries (path : String) : Entry → List String
  | .done => []
  | .file _ rest => walkEntries path rest
  | .subdir n contents rest =>
    (if pyStartswith n "." then []
     else dirBlock (pathJoin path n) (filesOf contents)
       ++ walkEntries (pathJoin path n) contents)
    ++ walkEntries path rest

/-- The full `reqs` list built by `pick_requirements` before it calls the
picker: the walk starts at the working directory itself (never pruned). -/
def walkFrom (path : String) (e : Entry) : List String :=
  dirBlock path (filesOf e) ++ walkEntries path e

/-- The directories `os.walk` visits (with the in-place dot-pruning of
`dnames`), with their file lists, in traversal order.  This is the
specification-side view the fused loop is proved equal to. -/
def visitedEntries (path : String) : Entry → List (String × List String)
  | .done => []
  | .file _ rest => visitedEntries path rest
  | .subdir n contents rest =>
    (if pyStartswith n "." then []
     else (pathJoin path n, filesOf contents) :: visitedEntries (pathJoin path n) contents)
    ++ visitedEntries path rest

/-- All visited directories, starting with the walk root. -/
def visitedDirs (path : String) (e : Entry) : List (String × List String) :=
  (path, filesOf e) :: visitedEntries path e

/-- `pick_requirements` (lines 281-291): collect the requirements paths,
then run the picker with `nargs="*"` and no quit option. -/
def pick_requirements (cwd : String) (tree : Entry) (inputs : List String) :
    Except PyError PickResult × List String :=
  picker (walkFrom cwd tree) (.lit "*") false inputs

/-! ## `filter_versions` (src/mkenv.py lines 185-201)

The installed versions (`get_pyenv_versions()`, a directory listing) and
the compiled regex are oracles: `search pat v` stands for
`re.compile(pat).search(v) is not None`. -/

/-- `filter_versions`, with the version list and regex engine as
parameters; the generator is forced to a list. -/
def filter_versions (search : String → String → Bool) (versions : List String)
    (filterStr : String) : List String :=
  if pyStartswith filterStr "/" then
    versions.filter (fun v => search (String.mk filterStr.data.tail) v)
  else
    versions.filter (fun v => pyStartswith v filterStr)

/-! ## `create_environment` (src/mkenv.py lines 294-339) -/

/-- The exceptions `create_environment` can raise. -/
inductive CreateError where
  /-- `RuntimeError` with the formatted message (lines 302-305). -/
  | runtimeError (msg : String)
  /-- `subprocess.CalledProcessError` from `check=True`, with the failing
  command and its status. -/
  | calledProcessError (cmd : List String) (returncode : Int)
deriving DecidableEq

/-- What a run of `create_environment` did: the commands passed to
`subprocess.run` in order, the warnings issued, and the exception that
ended the run early, if any. -/
structure CreateResult where
  calls : List (List String)
  warnings : List String
  error : Option CreateError
deriving DecidableEq

/-- The message of the fatal creation error (lines 302-305). -/
def createErrMsg (returncode : Int) (stderr : String) : String :=
  "Could not create pyenv environment (status code " ++ toString returncode ++ ")\n"
    ++ pyIndent "  " stderr

/-- The message of a non-fatal requirements warning (lines 332-335). -/
def installWarnMsg (req : String) (returncode : Int) (stderr : String) : String :=
  "Could not install requirements from (status code " ++ toString returncode ++ "): "
    ++ req ++ "\n" ++ pyIndent "  " stderr

/-- The command installing one requirements file (lines 327-329). -/
def installCmd (pipPath req : String) : List String :=
  [pipPath, "install", "-r", req]

/-- The requirements loop (lines 324-337): every file is attempted in
order; a nonzero status yields a warning and the loop continues. -/
def installReqs (exec : List String → ProcResult) (pipPath : String) :
    List String → List (List String) × List String
  | [] => ([], [])
  | req :: rest =>
    let res := exec (installCmd pipPath req)
    let tail := installReqs exec pipPath rest
    (installCmd pipPath req :: tail.1,
     (if res.returncode ≠ 0 then [installWarnMsg req res.returncode res.stderr] else [])
       ++ tail.2)

/-- `create_environment` (lines 294-339).  `exec` is `subprocess.run`
restricted to the captured-output calls the function makes; `pyenvRoot` is
`PYENV_ROOT`.  `requirements_files=None` is passed as `[]` (both skip the
loop).  A Python nonzero `returncode` is truthy, hence the `≠ 0` tests. -/
def create_environment (exec : List String → ProcResult) (pyenvRoot : String)
    (version name : String) (requirements_files : List String) : CreateResult :=
  let pyenvPath := pyenvRoot ++ "/bin/pyenv"
  let creationCmd := [pyenvPath, "virtualenv", version, name]
  let creation := exec creationCmd
  if creation.returncode ≠ 0 then
    { calls := [creationCmd], warnings := [],
      error := some (.runtimeError (createErrMsg creation.returncode creation.stderr)) }
  else
    let localCmd := [pyenvPath, "local", name]
    let localise := exec localCmd
    if localise.returncode ≠ 0 then
      { calls := [creationCmd, localCmd], warnings := [],
        error := some (.calledProcessError localCmd localise.returncode) }
    else
      let pipPath := pyenvRoot ++ "/versions/" ++ name ++ "/bin/pip"
      let updateCmd := [pipPath, "install", "-U", "pip"]
      let update := exec updateCmd
      if update.returncode ≠ 0 then
        { calls := [creationCmd, localCmd, updateCmd], warnings := [],
          error := some (.calledProcessError updateCmd update.returncode) }
      else
        let step := installReqs exec pipPath requirements_files
        { calls := creationCmd :: localCmd :: updateCmd :: step.1,
          warnings := step.2, error := none }

/-! ## `Arguments.from_parsed` and `main` (src/mkenv.py lines 130-148, 342-353) -/

/-- The resolved arguments record. -/
structure Arguments where
  py_version : String
  name : String
  requirements : List String
deriving DecidableEq

/-- The `-r` surface reaching `from_parsed`: flag absent
(`namespace.requirements is None`, falsy like `[]`), bare flag
(`== [None]`, triggers the interactive selection), or explicit paths.
A mixed list (`-r` both bare and with paths) is outside the claims and
not modelled. -/
inductive ReqArg where
  | noFlag
  | bareFlag
  | paths (ps : List String)
deriving DecidableEq

/-- `Arguments.from_parsed` (lines 135-148): resolve the version (first
match, or interactive pick), then the requirements list.  In the bare-flag
case the source wraps the picker result in `list(...)`; `list(None)`
raises `TypeError` when the picker returned `None` for an accepted empty
response.  With `nargs="*"` the picker is `multioption` and quit is not
allowed, so `single` and `quitSig` cannot occur there. -/
def from_parsed (search : String → String → Bool) (versions : List String)
    (cwd : String) (tree : Entry) (pick : Bool) (filterStr : String)
    (name : String) (reqArg : ReqArg) (inputs : List String) :
    Except PyError Arguments :=
  let matching := filter_versions search versions filterStr
  let picked :=
    if pick then pick_versions matching inputs
    else
      (match matching with
       | [] => .error .indexError
       | v :: _ => .ok v, inputs)
  match picked.1 with
  | .error e => .error e
  | .ok version =>
    match reqArg with
    | .bareFlag =>
      match pick_requirements cwd tree picked.2 with
      | (.ok (.multi ss), _) => .ok ⟨version, name, ss⟩
      | (.ok .pyNone, _) => .error .typeError
      | (.ok _, _) => .error .unreachableBranch
      | (.error e, _) => .error e
    | .noFlag => .ok ⟨version, name, []⟩
    | .paths ps => .ok ⟨version, name, ps⟩

/-- The tail of `main` (lines 352-353): resolve arguments, then create the
environment.  An exception from resolution propagates and
`create_environment` is never reached (in particular `exec` is never
invoked). -/
def mainModel (exec : List String → ProcResult) (pyenvRoot : String)
    (search : String → String → Bool) (versions : List String) (cwd : String)
    (tree : Entry) (pick : Bool) (filterStr : String) (name : String)
    (reqArg : ReqArg) (inputs : List String) : Except PyError CreateResult :=
  match from_parsed search versions cwd tree pick filterStr name reqArg inputs with
  | .error e => .error e
  | .ok a => .ok (create_environment exec pyenvRoot a.py_version a.name a.requirements)

/-! ## The key comparison is a strict total order -/

section LexFacts

variable {α : Type} [DecidableEq α] {lt : α → α → Bool}

theorem lexLTb_asymm (hasymm : ∀ {a b : α}, lt a b = true → lt b a = false) :
    ∀ (a b : List α), lexLTb lt a b = true → lexLTb lt b a = false := by
  intro a
  induction a with
  | nil =>
    intro b h
    cases b with
    | nil => simp [lexLTb] at h
    | cons y ys => simp [lexLTb]
  | cons x xs ih =>
    intro b h
    cases b with
    | nil => simp [lexLTb] at h
    | cons y ys =>
      simp only [lexLTb, Bool.or_eq_true, Bool.and_eq_true, decide_eq_true_eq] at h
      by_contra hc
      rw [Bool.not_eq_false] at hc
      simp only [lexLTb, Bool.or_eq_true, Bool.and_eq_true, decide_eq_true_eq] at hc
      rcases h with h | ⟨hxy, h⟩
      · rcases hc with hc | ⟨hyx, _⟩
        · rw [hasymm h] at hc; exact Bool.false_ne_true hc
        · rw [hyx] at h; rw [hasymm h] at h; exact Bool.false_ne_true h
      · subst hxy
        rcases hc with hc | ⟨_, hc⟩
        · rw [hasymm hc] at hc; exact Bool.false_ne_true hc
        · rw [ih ys h] at hc; exact Bool.false_ne_true hc

theorem lexLTb_trans
    (htrans : ∀ {a b c : α}, lt a b = true → lt b c = true → lt a c = true) :
    ∀ (a b c : List α), lexLTb lt a b = true → lexLTb lt b c = true →
      lexLTb lt a c = true := by
  intro a
  induction a with
  | nil =>
    intro b c hab hbc
    cases b with
    | nil => exact hbc
    | cons y ys =>
      cases c with
      | nil => simp [lexLTb] at hbc
      | cons z zs => simp [lexLTb]
  | cons x xs ih =>
    intro b c hab hbc
    cases b with
    | nil => simp [lexLTb] at hab
    | cons y ys =>
      cases c with
      | nil => simp [lexLTb] at hbc
      | cons z zs =>
        simp only [lexLTb, Bool.or_eq_true, Bool.and_eq_true, decide_eq_true_eq] at hab hbc ⊢
        rcases hab with hab | ⟨hab, habs⟩
        · rcases hbc with hbc | ⟨hbc, _⟩
          · exact Or.inl (htrans hab hbc)
          · subst hbc; exact Or.inl hab
        · subst hab
          rcases hbc with hbc | ⟨hbc, hbcs⟩
          · exact Or.inl hbc
          · subst hbc; exact Or.inr ⟨rfl, ih ys zs habs hbcs⟩

theorem lexLTb_eq_of_not
    (heq : ∀ {a b : α}, lt a b = false → lt b a = false → a = b) :
    ∀ (a b : List α), lexLTb lt a b = false → lexLTb lt b a = false → a = b := by
  intro a
  induction a with
  | nil =>
    intro b h1 _
    cases b with
    | nil => rfl
    | cons y ys => simp [lexLTb] at h1
  | cons x xs ih =>
    intro b h1 h2
    cases b with
    | nil => simp [lexLTb] at h2
    | cons y ys =>
      simp only [lexLTb, Bool.or_eq_false_iff, Bool.and_eq_false_iff] at h1 h2
      obtain ⟨hxy, h1r⟩ := h1
      obtain ⟨hyx, h2r⟩ := h2
      have hxy' : x = y := heq hxy hyx
      subst hxy'
      have : lexLTb lt xs ys = false := by
        rcases h1r with h | h
        · simp at h
        · exact h
      have : lexLTb lt ys xs = false := by
        rcases h2r with h | h
        · simp at h
        · exact h
      rw [ih ys ‹lexLTb lt xs ys = false› ‹lexLTb lt ys xs = false›]

end LexFacts

theorem charLTb_asymm {a b : Char} (h : charLTb a b = true) : charLTb b a = false := by
  simp only [charLTb, Char.toNat, decide_eq_true_eq] at h
  simp only [charLTb, Char.toNat, decide_eq_false_iff_not]
  omega

theorem charLTb_trans {a b c : Char} (h1 : charLTb a b = true) (h2 : charLTb b c = true) :
    charLTb a c = true := by
  simp only [charLTb, Char.toNat, decide_eq_true_eq] at h1 h2 ⊢
  omega

theorem charLTb_eq_of_not {a b : Char} (h1 : charLTb a b = false) (h2 : charLTb b a = false) :
    a = b := by
  simp only [charLTb, Char.toNat, decide_eq_false_iff_not] at h1 h2
  exact Char.ext (UInt32.ext (by omega))

theorem tripleLTb_asymm {a b : VerTriple} (h : tripleLTb a b = true) : tripleLTb b a = false := by
  obtain ⟨a1, a2, a3⟩ := a
  obtain ⟨b1, b2, b3⟩ := b
  simp only [tripleLTb, Bool.or_eq_true, Bool.and_eq_true, decide_eq_true_eq] at h
  simp only [tripleLTb, Bool.or_eq_false_iff, Bool.and_eq_false_iff, decide_eq_false_iff_not]
  omega

theorem tripleLTb_trans {a b c : VerTriple} (h1 : tripleLTb a b = true)
    (h2 : tripleLTb b c = true) : tripleLTb a c = true := by
  obtain ⟨a1, a2, a3⟩ := a
  obtain ⟨b1, b2, b3⟩ := b
  obtain ⟨c1, c2, c3⟩ := c
  simp only [tripleLTb, Bool.or_eq_true, Bool.and_eq_true, decide_eq_true_eq] at h1 h2 ⊢
  omega

theorem tripleLTb_eq_of_not {a b : VerTriple} (h1 : tripleLTb a b = false)
    (h2 : tripleLTb b a = false) : a = b := by
  obtain ⟨a1, a2, a3⟩ := a
  obtain ⟨b1, b2, b3⟩ := b
  simp only [tripleLTb, Bool.or_eq_false_iff, Bool.and_eq_false_iff,
    decide_eq_false_iff_not] at h1 h2
  simp only [Prod.mk.injEq]
  omega

theorem strLTb_asymm {a b : List Char} (h : strLTb a b = true) : strLTb b a = false :=
  @lexLTb_asymm Char _ charLTb (fun {_ _} h => charLTb_asymm h) a b h

theorem strLTb_trans {a b c : List Char} (h1 : strLTb a b = true) (h2 : strLTb b c = true) :
    strLTb a c = true :=
  @lexLTb_trans Char _ charLTb (fun {_ _ _} h h' => charLTb_trans h h') a b c h1 h2

theorem strLTb_eq_of_not {a b : String} (h1 : strLTb a.data b.data = false)
    (h2 : strLTb b.data a.data = false) : a = b := by
  obtain ⟨d1⟩ := a
  obtain ⟨d2⟩ := b
  exact congrArg String.mk
    (@lexLTb_eq_of_not Char _ charLTb (fun {_ _} h h' => charLTb_eq_of_not h h') d1 d2 h1 h2)

theorem strLTb_irrefl (a : List Char) : strLTb a a = false := by
  by_contra hc
  rw [Bool.not_eq_false] at hc
  rw [strLTb_asymm hc] at hc
  exact Bool.false_ne_true hc

theorem mlistLTb_asymm {a b : List VerTriple} (h : mlistLTb a b = true) :
    mlistLTb b a = false :=
  @lexLTb_asymm VerTriple _ tripleLTb (fun {_ _} h => tripleLTb_asymm h) a b h

theorem mlistLTb_trans {a b c : List VerTriple} (h1 : mlistLTb a b = true)
    (h2 : mlistLTb b c = true) : mlistLTb a c = true :=
  @lexLTb_trans VerTriple _ tripleLTb (fun {_ _ _} h h' => tripleLTb_trans h h') a b c h1 h2

theorem mlistLTb_eq_of_not {a b : List VerTriple} (h1 : mlistLTb a b = false)
    (h2 : mlistLTb b a = false) : a = b :=
  @lexLTb_eq_of_not VerTriple _ tripleLTb (fun {_ _} h h' => tripleLTb_eq_of_not h h') a b h1 h2

theorem keyLTb_asymm {x y : SortKey} (h : keyLTb x y = true) : keyLTb y x = false := by
  obtain ⟨g1, b1, m1⟩ := x
  obtain ⟨g2, b2, m2⟩ := y
  simp only [keyLTb, Bool.or_eq_true, Bool.and_eq_true, decide_eq_true_eq] at h
  simp only [keyLTb, Bool.or_eq_false_iff, Bool.and_eq_false_iff, decide_eq_false_iff_not]
  rcases h with h | ⟨hg, h⟩
  · constructor
    · omega
    · left; omega
  · subst hg
    refine ⟨by omega, Or.inr ?_⟩
    rcases h with h | ⟨hb, h⟩
    · constructor
      · exact strLTb_asymm h
      · left
        intro hbe
        subst hbe
        rw [strLTb_irrefl] at h
        exact Bool.false_ne_true h
    · subst hb
      exact ⟨strLTb_irrefl _, Or.inr (mlistLTb_asymm h)⟩

theorem keyLTb_trans {x y z : SortKey} (h1 : keyLTb x y = true) (h2 : keyLTb y z = true) :
    keyLTb x z = true := by
  obtain ⟨g1, b1, m1⟩ := x
  obtain ⟨g2, b2, m2⟩ := y
  obtain ⟨g3, b3, m3⟩ := z
  simp only [keyLTb, Bool.or_eq_true, Bool.and_eq_true, decide_eq_true_eq] at h1 h2 ⊢
  rcases h1 with h1 | ⟨hg1, h1⟩
  · rcases h2 with h2 | ⟨hg2, _⟩
    · left; omega
    · left; omega
  · subst hg1
    rcases h2 with h2 | ⟨hg2, h2⟩
    · left; omega
    · subst hg2
      right
      refine ⟨rfl, ?_⟩
      rcases h1 with h1 | ⟨hb1, h1⟩
      · rcases h2 with h2 | ⟨hb2, _⟩
        · exact Or.inl (strLTb_trans h1 h2)
        · subst hb2; exact Or.inl h1
      · subst hb1
        rcases h2 with h2 | ⟨hb2, h2⟩
        · exact Or.inl h2
        · subst hb2
          exact Or.inr ⟨rfl, mlistLTb_trans h1 h2⟩

theorem keyLTb_eq_of_not {x y : SortKey} (h1 : keyLTb x y = false) (h2 : keyLTb y x = false) :
    x = y := by
  obtain ⟨g1, b1, m1⟩ := x
  obtain ⟨g2, b2, m2⟩ := y
  simp only [keyLTb, Bool.or_eq_false_iff, Bool.and_eq_false_iff,
    decide_eq_false_iff_not] at h1 h2
  obtain ⟨hgl1, h1⟩ := h1
  obtain ⟨hgl2, h2⟩ := h2
  have hg : g1 = g2 := by omega
  subst hg
  rcases h1 with h1 | h1
  · exact absurd rfl h1
  rcases h2 with h2 | h2
  · exact absurd rfl h2
  obtain ⟨hbl1, h1⟩ := h1
  obtain ⟨hbl2, h2⟩ := h2
  have hb : b1 = b2 := strLTb_eq_of_not hbl1 hbl2
  subst hb
  rcases h1 with h1 | h1
  · exact absurd rfl h1
  rcases h2 with h2 | h2
  · exact absurd rfl h2
  rw [mlistLTb_eq_of_not h1 h2]

instance : IsTotal String versLE := by
  constructor
  intro a b
  by_cases h : keyLTb (sort_key b) (sort_key a) = true
  · right
    unfold versLE keyLEb
    rw [keyLTb_asymm h]
    rfl
  · left
    unfold versLE keyLEb
    rw [Bool.not_eq_true] at h
    rw [h]
    rfl

instance : IsTrans String versLE := by
  constructor
  intro a b c h1 h2
  unfold versLE keyLEb at h1 h2 ⊢
  rw [Bool.not_eq_true'] at h1 h2 ⊢
  by_contra hc
  rw [Bool.not_eq_false] at hc
  by_cases h : keyLTb (sort_key b) (sort_key c) = true
  · rw [keyLTb_trans h hc] at h1
    simp at h1
  · rw [Bool.not_eq_true] at h
    have := keyLTb_eq_of_not h2 h
    rw [this] at hc
    rw [hc] at h1
    simp at h1

/-! ## Facts about the shape of `sort_key` -/

theorem sortKey_fst (s : String) :
    (sort_key s).1 = if leadDigit s then 0 else 1 := by
  obtain ⟨cs⟩ := s
  cases cs with
  | nil => rfl
  | cons c cs =>
    by_cases h : c.isDigit
    · simp [sort_key, leadDigit, h]
    · simp [sort_key, leadDigit, h]

theorem sortKey_matches (s : String) :
    (sort_key s).2.2 = (findVersions s).map neg3 := by
  obtain ⟨cs⟩ := s
  cases cs with
  | nil => rfl
  | cons c cs =>
    by_cases h : c.isDigit
    · simp [sort_key, h]
    · simp [sort_key, h]

theorem tripleLTb_neg3 {a b : VerTriple} (h : tripleLTb b a = true) :
    tripleLTb (neg3 a) (neg3 b) = true := by
  obtain ⟨a1, a2, a3⟩ := a
  obtain ⟨b1, b2, b3⟩ := b
  simp only [tripleLTb, neg3, Bool.or_eq_true, Bool.and_eq_true, decide_eq_true_eq] at h ⊢
  omega

theorem keyLTb_of_fst_lt {x y : SortKey} (h : x.1 < y.1) : keyLTb x y = true := by
  obtain ⟨g1, b1, m1⟩ := x
  obtain ⟨g2, b2, m2⟩ := y
  simp only [keyLTb, Bool.or_eq_true, decide_eq_true_eq]
  exact Or.inl h

/-- If `a` sorts no later than `b` and `b` is digit-leading, so is `a`:
the group marker dominates the key comparison. -/
theorem versLE_leadDigit {a b : String} (h : versLE a b) (hb : leadDigit b = true) :
    leadDigit a = true := by
  by_contra ha
  rw [Bool.not_eq_true] at ha
  unfold versLE keyLEb at h
  have hlt : keyLTb (sort_key b) (sort_key a) = true := by
    apply keyLTb_of_fst_lt
    rw [sortKey_fst, sortKey_fst, hb, ha]
    simp
  rw [hlt] at h
  exact Bool.false_ne_true h

/-- C4: sorting by `sort_key` puts every digit-leading version string before
every non-digit-leading one; for two strings whose keys share group marker
and base, a strictly larger first regex match (missing patch read as `-1`)
sorts strictly earlier (descending version order); and the spec example
sorts as stated. -/
theorem c4_sort_key_order :
    (∀ l : List String, (∀ s ∈ l, s ≠ "") →
      (sortedVersions l).Pairwise
        (fun a b => leadDigit b = true → leadDigit a = true))
    ∧ (∀ s t : String, (sort_key s).1 = (sort_key t).1 →
        (sort_key s).2.1 = (sort_key t).2.1 →
        ∀ a as b bs, findVersions s = a :: as → findVersions t = b :: bs →
        tripleLTb b a = true →
        keyLTb (sort_key s) (sort_key t) = true)
    ∧ sortedVersions ["3.9", "3.10", "3.9.1"] = ["3.10", "3.9.1", "3.9"] := by
  refine ⟨?_, ?_, by decide⟩
  · intro l _
    have hs : List.Sorted versLE (sortedVersions l) :=
      List.sorted_insertionSort versLE l
    exact List.Pairwise.imp (fun {a b} h hb => versLE_leadDigit h hb) hs
  · intro s t hg hb a as b bs hfs hft hlt
    have hms : (sort_key s).2.2 = neg3 a :: as.map neg3 := by
      rw [sortKey_matches, hfs]; rfl
    have hmt : (sort_key t).2.2 = neg3 b :: bs.map neg3 := by
      rw [sortKey_matches, hft]; rfl
    simp only [keyLTb, Bool.or_eq_true, Bool.and_eq_true, decide_eq_true_eq]
    refine Or.inr ⟨hg, Or.inr ⟨hb, ?_⟩⟩
    rw [hms, hmt]
    simp only [mlistLTb, lexLTb, Bool.or_eq_true]
    exact Or.inl (tripleLTb_neg3 hlt)

/-- Witness for `c4_sort_key_order` at concrete inputs. -/
theorem c4_sort_key_order_witness :
    ((sortedVersions ["3.9", "pypy"]).Pairwise
      (fun a b => leadDigit b = true → leadDigit a = true))
    ∧ keyLTb (sort_key "3.10") (sort_key "3.9") = true :=
  ⟨c4_sort_key_order.1 ["3.9", "pypy"] (by decide),
   c4_sort_key_order.2.1 "3.10" "3.9" (by decide) (by decide)
     (3, 10, -1) [] (3, 9, -1) [] (by decide) (by decide) (by decide)⟩

/-- C5 as written is false: a string without any regex match sorts BEFORE,
not after, strings of the same group and base that do have matches.  At the
concrete pair `"abc"` (no match) and `"abc3.9"` (group 1, same base
`"abc"`, one match), the no-match string compares strictly smaller and
`sorted` puts it first. -/
theorem c5_counterexample :
    findVersions "abc" = []
    ∧ (sort_key "abc").1 = (sort_key "abc3.9").1
    ∧ (sort_key "abc").2.1 = (sort_key "abc3.9").2.1
    ∧ findVersions "abc3.9" = [(3, 9, -1)]
    ∧ keyLTb (sort_key "abc") (sort_key "abc3.9") = true
    ∧ keyLTb (sort_key "abc3.9") (sort_key "abc") = false
    ∧ sortedVersions ["abc3.9", "abc"] = ["abc", "abc3.9"] := by
  decide

/-- C5 (amended): a string without any regex match gets a key with no
numeric components (just the group marker and base), and sorts BEFORE all
strings of the same group and base that do contain numeric components. -/
theorem c5_no_match_sorts_first (s t : String)
    (hg : (sort_key s).1 = (sort_key t).1)
    (hb : (sort_key s).2.1 = (sort_key t).2.1)
    (hs : findVersions s = []) (ht : findVersions t ≠ []) :
    (sort_key s).2.2 = [] ∧ keyLTb (sort_key s) (sort_key t) = true := by
  have hms : (sort_key s).2.2 = [] := by rw [sortKey_matches, hs]; rfl
  refine ⟨hms, ?_⟩
  obtain ⟨b, bs, hbs⟩ := List.exists_cons_of_ne_nil ht
  have hmt : (sort_key t).2.2 = neg3 b :: bs.map neg3 := by
    rw [sortKey_matches, hbs]; rfl
  simp only [keyLTb, Bool.or_eq_true, Bool.and_eq_true, decide_eq_true_eq]
  refine Or.inr ⟨hg, Or.inr ⟨hb, ?_⟩⟩
  rw [hms, hmt]
  rfl

/-- Witness for `c5_no_match_sorts_first` at the concrete pair. -/
theorem c5_no_match_sorts_first_witness :
    (sort_key "abc").2.2 = [] ∧ keyLTb (sort_key "abc") (sort_key "abc3.9") = true :=
  c5_no_match_sorts_first "abc" "abc3.9" (by decide) (by decide) (by decide) (by decide)

/-! ## Supporting lemmas for the remaining claims -/

theorem pyStartswith_empty (v : String) : pyStartswith v "" = true := by
  unfold pyStartswith
  cases v.data <;> rfl

instance : IsTotal String strDataLE := by
  constructor
  intro a b
  by_cases h : strLTb b.data a.data = true
  · right
    unfold strDataLE
    exact strLTb_asymm h
  · left
    unfold strDataLE
    rwa [Bool.not_eq_true] at h

instance : IsTrans String strDataLE := by
  constructor
  intro a b c h1 h2
  unfold strDataLE at h1 h2 ⊢
  by_contra hc
  rw [Bool.not_eq_false] at hc
  by_cases h : strLTb b.data c.data = true
  · rw [strLTb_trans h hc] at h1
    simp at h1
  · rw [Bool.not_eq_true] at h
    have hbc : b = c := strLTb_eq_of_not h h2
    rw [hbc] at h1
    rw [hc] at h1
    simp at h1

/-- The requirements loop unrolled: all files attempted in order, a
warning exactly for each nonzero status. -/
theorem installReqs_eq (exec : List String → ProcResult) (pipPath : String) :
    ∀ reqs : List String,
      installReqs exec pipPath reqs =
        (reqs.map (installCmd pipPath),
         reqs.filterMap (fun r =>
           if (exec (installCmd pipPath r)).returncode ≠ 0 then
             some (installWarnMsg r (exec (installCmd pipPath r)).returncode
               (exec (installCmd pipPath r)).stderr)
           else none)) := by
  intro reqs
  induction reqs with
  | nil => rfl
  | cons req rest ih =>
    simp only [installReqs, ih, List.map_cons, List.filterMap_cons]
    by_cases h : (exec (installCmd pipPath req)).returncode ≠ 0
    · simp [h]
    · simp [h]

/-- The fused walk loop equals its per-directory decomposition. -/
theorem walkEntries_eq :
    ∀ (e : Entry) (path : String),
      walkEntries path e =
        (visitedEntries path e).flatMap (fun pr => dirBlock pr.1 pr.2) := by
  intro e
  induction e with
  | done => intro path; rfl
  | file n rest ih =>
    intro path
    simp only [walkEntries, visitedEntries, ih]
  | subdir n contents rest ihc ihr =>
    intro path
    by_cases h : pyStartswith n "." = true
    · simp only [walkEntries, visitedEntries, if_pos h, List.nil_append, ihr]
    · rw [Bool.not_eq_true] at h
      simp only [walkEntries, visitedEntries, h, Bool.false_eq_true, if_false,
        List.flatMap_append, List.flatMap_cons, ihc, ihr, List.append_assoc]

/-- A quit token on the first input line makes `picker` return the quit
signal at once (nothing of the menu lookup runs). -/
theorem picker_quit {options : List String} {nargs : Nargs} {line : String}
    (rest : List String) (hopt : options ≠ []) (hne : pyStrip line ≠ "")
    (hq : (tokensOf nargs (pyStrip line)).any (fun r => pyLower r = "q") = true) :
    picker options nargs true (line :: rest) = (.ok .quitSig, rest) := by
  have hemp : options.isEmpty = false := by
    cases options with
    | nil => exact absurd rfl hopt
    | cons x xs => rfl
  unfold picker
  rw [hemp]
  simp only [Bool.false_eq_true, if_false, pickerLoop, pickerStep]
  rw [if_neg hne, hq]
  rfl

/-! ## Claim theorems -/

/-- C1: contrary to the claim, multi-option mode does not parse each
comma-separated token as its own index: line 257 parses the raw response
string, so the two-token response "1,2" over options ["a","b","c"] raises
`ValueError` inside the loop, the whole response is rejected and the
prompt repeats (here: until input runs out) instead of returning
["a","b"]; a single-token response still works, under the same raw-response
lookup. -/
theorem c1_raw_response_parsed :
    pickerStep ["a", "b", "c"] (.lit "*") false "1,2" = none
    ∧ picker ["a", "b", "c"] (.lit "*") false ["1,2"] = (.error .inputExhausted, [])
    ∧ pyInt "1,2" = none
    ∧ tokensOf (.lit "*") "1,2" = ["1", "2"]
    ∧ picker ["a", "b", "c"] (.lit "*") false ["2"] = (.ok (.multi ["b"]), []) := by
  decide

/-- C2: when the creation call exits nonzero, `create_environment` stops
with a `RuntimeError` whose message carries the call's captured standard
error (indented), and no further external call is made. -/
theorem c2_create_failure_fatal (exec : List String → ProcResult)
    (root version name : String) (reqs : List String)
    (h : (exec [root ++ "/bin/pyenv", "virtualenv", version, name]).returncode ≠ 0) :
    create_environment exec root version name reqs =
      { calls := [[root ++ "/bin/pyenv", "virtualenv", version, name]],
        warnings := [],
        error := some (.runtimeError (createErrMsg
          (exec [root ++ "/bin/pyenv", "virtualenv", version, name]).returncode
          (exec [root ++ "/bin/pyenv", "virtualenv", version, name]).stderr)) } := by
  unfold create_environment
  rw [if_pos h]

/-- The oracle of a run whose creation call fails. -/
def execCreateFails : List String → ProcResult :=
  fun _ => ⟨1, "", "boom"⟩

/-- Witness for `c2_create_failure_fatal` at a concrete failing oracle. -/
theorem c2_create_failure_fatal_witness :
    create_environment execCreateFails "/pyenv" "3.9" "env" ["a.txt"] =
      { calls := [["/pyenv/bin/pyenv", "virtualenv", "3.9", "env"]],
        warnings := [],
        error := some (.runtimeError
          "Could not create pyenv environment (status code 1)\n  boom") } := by
  have h := c2_create_failure_fatal execCreateFails "/pyenv" "3.9" "env" ["a.txt"] (by decide)
  exact h.trans (by decide)

/-- C3: once the first three calls succeed, every requirements file is
attempted in order whatever the outcomes; a nonzero install produces a
warning carrying the file's path and captured standard error, the run
continues and ends without error. -/
theorem c3_requirements_never_fatal (exec : List String → ProcResult)
    (root version name : String) (reqs : List String)
    (h1 : (exec [root ++ "/bin/pyenv", "virtualenv", version, name]).returncode = 0)
    (h2 : (exec [root ++ "/bin/pyenv", "local", name]).returncode = 0)
    (h3 : (exec [root ++ "/versions/" ++ name ++ "/bin/pip", "install", "-U", "pip"]).returncode = 0) :
    create_environment exec root version name reqs =
      { calls := [root ++ "/bin/pyenv", "virtualenv", version, name]
          :: [root ++ "/bin/pyenv", "local", name]
          :: [root ++ "/versions/" ++ name ++ "/bin/pip", "install", "-U", "pip"]
          :: reqs.map (installCmd (root ++ "/versions/" ++ name ++ "/bin/pip")),
        warnings := reqs.filterMap (fun r =>
          if (exec (installCmd (root ++ "/versions/" ++ name ++ "/bin/pip") r)).returncode ≠ 0 then
            some (installWarnMsg r
              (exec (installCmd (root ++ "/versions/" ++ name ++ "/bin/pip") r)).returncode
              (exec (installCmd (root ++ "/versions/" ++ name ++ "/bin/pip") r)).stderr)
          else none),
        error := none } := by
  unfold create_environment
  rw [if_neg (by rw [h1]; exact fun hc => hc rfl)]
  rw [if_neg (by rw [h2]; exact fun hc => hc rfl)]
  rw [if_neg (by rw [h3]; exact fun hc => hc rfl)]
  rw [installReqs_eq]

/-- The oracle of a run where only installing "a.txt" fails. -/
def execInstallAFails : List String → ProcResult :=
  fun c =>
    if c = installCmd "/pyenv/versions/env/bin/pip" "a.txt" then ⟨1, "", "conflict"⟩
    else ⟨0, "", ""⟩

/-- Witness for `c3_requirements_never_fatal`: the first file's install
fails, the second is still attempted, only the first is warned about. -/
theorem c3_requirements_never_fatal_witness :
    create_environment execInstallAFails "/pyenv" "3.9" "env" ["a.txt", "b.txt"] =
      { calls := [["/pyenv/bin/pyenv", "virtualenv", "3.9", "env"],
          ["/pyenv/bin/pyenv", "local", "env"],
          ["/pyenv/versions/env/bin/pip", "install", "-U", "pip"],
          ["/pyenv/versions/env/bin/pip", "install", "-r", "a.txt"],
          ["/pyenv/versions/env/bin/pip", "install", "-r", "b.txt"]],
        warnings := ["Could not install requirements from (status code 1): a.txt\n  conflict"],
        error := none } := by
  have h := c3_requirements_never_fatal execInstallAFails "/pyenv" "3.9" "env"
    ["a.txt", "b.txt"] (by decide) (by decide) (by decide)
  exact h.trans (by decide)

/-- C6: `filter_versions` yields an in-order sublist of its input; with a
leading "/" it keeps exactly the versions the compiled regex finds a match
in, otherwise exactly those starting with the filter string; the empty
filter keeps everything unchanged. -/
theorem c6_filter_versions (search : String → String → Bool)
    (versions : List String) (filterStr : String) :
    List.Sublist (filter_versions search versions filterStr) versions
    ∧ (pyStartswith filterStr "/" = true →
        filter_versions search versions filterStr =
          versions.filter (fun v => search (String.mk filterStr.data.tail) v))
    ∧ (pyStartswith filterStr "/" = false →
        filter_versions search versions filterStr =
          versions.filter (fun v => pyStartswith v filterStr))
    ∧ (filterStr = "" → filter_versions search versions filterStr = versions) := by
  refine ⟨?_, ?_, ?_, ?_⟩
  · unfold filter_versions
    by_cases h : pyStartswith filterStr "/" = true
    · rw [if_pos h]; exact List.filter_sublist _
    · rw [Bool.not_eq_true] at h
      rw [h]
      simp only [Bool.false_eq_true, if_false]
      exact List.filter_sublist _
  · intro h
    unfold filter_versions
    rw [if_pos h]
  · intro h
    unfold filter_versions
    rw [h]
    simp only [Bool.false_eq_true, if_false]
  · intro h
    subst h
    unfold filter_versions
    rw [if_neg (by decide)]
    exact List.filter_eq_self.mpr (fun v _ => pyStartswith_empty v)

/-- Witness for `c6_filter_versions`: the two spec examples. -/
theorem c6_filter_versions_witness :
    filter_versions (fun _ _ => false) ["3.9.0", "3.9.1", "3.10.0"] "3.9" =
      List.filter (fun v => pyStartswith v "3.9") ["3.9.0", "3.9.1", "3.10.0"]
    ∧ filter_versions (fun _ _ => false) ["3.9.0", "3.10.0"] "" = ["3.9.0", "3.10.0"] :=
  ⟨(c6_filter_versions (fun _ _ => false) ["3.9.0", "3.9.1", "3.10.0"] "3.9").2.2.1 (by decide),
   (c6_filter_versions (fun _ _ => false) ["3.9.0", "3.10.0"] "").2.2.2 rfl⟩

/-- C7: with quit allowed, a nonempty response whose token list (split per
the invocation's `nargs`) contains a case-insensitive "q" makes the picker
return the quit signal — for every option list and every `nargs`, so in
particular for a multi-token response like "1,q" with `nargs="*"`; and in
the top-level version picker (`nargs` the int `1`, whose only token is the
stripped response) the quit signal becomes `sys.exit(0)` before
`create_environment` can run, for every subprocess oracle. -/
theorem c7_quit :
    (∀ (options : List String) (nargs : Nargs) (line : String) (rest : List String),
      options ≠ [] → pyStrip line ≠ "" →
      (tokensOf nargs (pyStrip line)).any (fun r => pyLower r = "q") = true →
      picker options nargs true (line :: rest) = (.ok .quitSig, rest))
    ∧ (∀ (exec : List String → ProcResult) (root : String)
        (search : String → String → Bool) (versions : List String) (cwd : String)
        (tree : Entry) (filterStr name : String) (reqArg : ReqArg)
        (line : String) (rest : List String),
      filter_versions search versions filterStr ≠ [] → pyStrip line ≠ "" →
      (tokensOf (.num 1) (pyStrip line)).any (fun r => pyLower r = "q") = true →
      mainModel exec root search versions cwd tree true filterStr name reqArg
        (line :: rest) = .error (.systemExit 0)) := by
  constructor
  · intro options nargs line rest hopt hne hq
    exact picker_quit rest hopt hne hq
  · intro exec root search versions cwd tree filterStr name reqArg line rest
      hvers hne hq1
    unfold mainModel from_parsed pick_versions
    have hpick := picker_quit rest hvers hne hq1
    simp only [hpick, if_true]

/-- Witness for `c7_quit`: a multi-token response "1,q" quits a
multi-option picker, and the version picker's "q" exits the run. -/
theorem c7_quit_witness :
    picker ["a", "b", "c"] (.lit "*") true ["1,q"] = (.ok .quitSig, [])
    ∧ mainModel (fun _ => ⟨0, "", ""⟩) "/pyenv" (fun _ _ => false) ["3.9"] "/cwd"
        .done true "" "env" .noFlag ["q"] = .error (.systemExit 0) :=
  ⟨c7_quit.1 ["a", "b", "c"] (.lit "*") "1,q" [] (by decide) (by decide) (by decide),
   c7_quit.2 (fun _ => ⟨0, "", ""⟩) "/pyenv" (fun _ _ => false) ["3.9"] "/cwd" .done
     "" "env" .noFlag "q" [] (by decide) (by decide) (by decide)⟩

/-- C8: an empty filter result is fatal before any environment is created,
for every subprocess oracle: without --pick as the `IndexError` of
`matching_versions[0]`, with --pick as the `ValueError` of `max` over the
empty option mapping. -/
theorem c8_no_match_fatal (exec : List String → ProcResult) (root : String)
    (search : String → String → Bool) (versions : List String) (cwd : String)
    (tree : Entry) (filterStr name : String) (reqArg : ReqArg)
    (inputs : List String)
    (h : filter_versions search versions filterStr = []) :
    mainModel exec root search versions cwd tree false filterStr name reqArg inputs
      = .error .indexError
    ∧ mainModel exec root search versions cwd tree true filterStr name reqArg inputs
      = .error .valueErrorMaxEmpty := by
  constructor
  · unfold mainModel from_parsed
    rw [h]
    rfl
  · unfold mainModel from_parsed pick_versions picker
    rw [h]
    rfl

/-- Witness for `c8_no_match_fatal`: no installed version matches "4". -/
theorem c8_no_match_fatal_witness :
    mainModel (fun _ => ⟨0, "", ""⟩) "/pyenv" (fun _ _ => false) ["3.9", "2.7"]
      "/cwd" .done false "4" "env" .noFlag [] = .error .indexError
    ∧ mainModel (fun _ => ⟨0, "", ""⟩) "/pyenv" (fun _ _ => false) ["3.9", "2.7"]
      "/cwd" .done true "4" "env" .noFlag [] = .error .valueErrorMaxEmpty :=
  c8_no_match_fatal (fun _ => ⟨0, "", ""⟩) "/pyenv" (fun _ _ => false) ["3.9", "2.7"]
    "/cwd" .done "4" "env" .noFlag [] (by decide)

/-- The directory tree of the C9 example: a pruned dot-directory holding a
requirements file, unsorted matching files, a non-matching file, and a
subdirectory with matching files listed out of order. -/
def exampleTree : Entry :=
  .subdir ".git" (.file "requirements.txt" .done)
    (.file "requirements_dev.txt" (.file "notes.txt"
      (.subdir "sub" (.file "requirements.txt" (.file "requirements-extra.txt" .done))
        (.file "requirements.txt" .done))))

/-- C9: the requirements walk equals, directory by directory in traversal
order (dot-directories never entered), the sorted-then-filtered file block
of each visited directory; each block is sorted by file name; every
collected path is a visited directory's path joined with a file name that
starts with "requirements" and ends with ".txt"; and a concrete tree walks
to exactly the expected list. -/
theorem c9_requirements_walk :
    (∀ (cwd : String) (e : Entry),
      walkFrom cwd e = (visitedDirs cwd e).flatMap (fun pr => dirBlock pr.1 pr.2))
    ∧ (∀ files : List String,
        List.Sorted strDataLE ((List.insertionSort strDataLE files).filter reqFileMatch))
    ∧ (∀ (cwd : String) (e : Entry) (p : String), p ∈ walkFrom cwd e →
        ∃ d f, reqFileMatch f = true ∧ p = pathJoin d f)
    ∧ walkFrom "/cwd" exampleTree =
        ["/cwd/requirements.txt", "/cwd/requirements_dev.txt",
         "/cwd/sub/requirements-extra.txt", "/cwd/sub/requirements.txt"] := by
  have hsorted : ∀ files : List String,
      List.Sorted strDataLE ((List.insertionSort strDataLE files).filter reqFileMatch) :=
    fun files =>
      List.Pairwise.sublist (List.filter_sublist _)
        (List.sorted_insertionSort strDataLE files)
  have heq : ∀ (cwd : String) (e : Entry),
      walkFrom cwd e = (visitedDirs cwd e).flatMap (fun pr => dirBlock pr.1 pr.2) := by
    intro cwd e
    unfold walkFrom visitedDirs
    rw [List.flatMap_cons, walkEntries_eq]
  refine ⟨heq, hsorted, ?_, by decide⟩
  intro cwd e p hp
  rw [heq] at hp
  obtain ⟨pr, _, hpr⟩ := List.mem_flatMap.mp hp
  unfold dirBlock at hpr
  obtain ⟨f, hf, hpf⟩ := List.mem_map.mp hpr
  exact ⟨pr.1, f, (List.mem_filter.mp hf).2, hpf.symm⟩

/-- Witness for `c9_requirements_walk` at the example tree. -/
theorem c9_requirements_walk_witness :
    walkFrom "/cwd" exampleTree =
      (visitedDirs "/cwd" exampleTree).flatMap (fun pr => dirBlock pr.1 pr.2)
    ∧ (∃ d f, reqFileMatch f = true ∧ "/cwd/requirements.txt" = pathJoin d f) :=
  ⟨c9_requirements_walk.1 "/cwd" exampleTree,
   c9_requirements_walk.2.2.1 "/cwd" exampleTree "/cwd/requirements.txt" (by decide)⟩

/-- C10: the picker over an empty option sequence fails with the
`ValueError` of `max` over the empty mapping without consuming any input;
hence interactive requirements selection in a tree with no matching files
fails the same way instead of returning an empty selection. -/
theorem c10_empty_options_crash :
    (∀ (nargs : Nargs) (allowQuit : Bool) (inputs : List String),
      picker [] nargs allowQuit inputs = (.error .valueErrorMaxEmpty, inputs))
    ∧ (∀ (cwd : String) (tree : Entry) (inputs : List String),
        walkFrom cwd tree = [] →
        pick_requirements cwd tree inputs = (.error .valueErrorMaxEmpty, inputs)) := by
  refine ⟨fun _ _ _ => rfl, ?_⟩
  intro cwd tree inputs h
  unfold pick_requirements
  rw [h]
  rfl

/-- Witness for `c10_empty_options_crash`: a tree without requirements
files. -/
theorem c10_empty_options_crash_witness :
    pick_requirements "/cwd" (.file "readme.md" .done) ["1"]
      = (.error .valueErrorMaxEmpty, ["1"]) :=
  c10_empty_options_crash.2 "/cwd" (.file "readme.md" .done) ["1"] (by decide)

end Mkenv
